import Mathlib

/-!
Verification of the geovista core against its specification.

The development shallowly embeds the relevant parts of the source:

* `src/geovista/common.py`  — coordinate kernel (`wrap`, `to_xyz`,
  `to_lonlats`, `calculate_radius`);
* `src/geovista/bridge.py`  — mesh transform pipeline
  (`Transform.from_unstructured` coordinate path,
  `Transform._create_connectivity_m1n1`, `Transform.from_1d` geometry);
* `lib/geovista/geodesic.py` — geodesic bounded box (`BBox.__init__`
  validation, `BBox._generate_face`, `BBox._generate_mesh`,
  `BBox._generate_skirt`, `BBox.enclosed`, `wedge`).

Machine floats are modelled by exact arithmetic: `ℝ` where transcendental
functions occur, `ℚ` where only field operations and comparisons occur.
External numeric kernels (the pyproj great-circle interpolator and the VTK
point-in-solid classifier) are abstracted as function parameters constrained
only by their documented input/output contracts.
-/

namespace Geovista

open Real

/-- NumPy floored modulo for real operands (`a % b`): `a - b * ⌊a / b⌋`;
for `b > 0` the result lies in `[0, b)`. -/
def fmod {α : Type} [LinearOrderedField α] [FloorRing α] (a b : α) : α :=
  a - b * (⌊a / b⌋ : ℤ)

/-- Embedding of `common.wrap(longitudes, base=-180, period=360)`:
`((longitudes - base + period * 2) % period) + base`, applied pointwise. -/
def wrap {α : Type} [LinearOrderedField α] [FloorRing α]
    (v : α) (base : α := -180) (period : α := 360) : α :=
  fmod (v - base + period * 2) period + base

theorem fmod_nonneg {α : Type} [LinearOrderedField α] [FloorRing α]
    {a b : α} (hb : 0 < b) : 0 ≤ fmod a b := by
  have h := Int.floor_le (a / b)
  have : (⌊a / b⌋ : α) * b ≤ a / b * b := by
    exact mul_le_mul_of_nonneg_right h hb.le
  rw [div_mul_cancel₀ a hb.ne'] at this
  unfold fmod
  nlinarith

theorem fmod_lt {α : Type} [LinearOrderedField α] [FloorRing α]
    {a b : α} (hb : 0 < b) : fmod a b < b := by
  have h := Int.lt_floor_add_one (a / b)
  have : a / b * b < ((⌊a / b⌋ : α) + 1) * b :=
    mul_lt_mul_of_pos_right h hb
  rw [div_mul_cancel₀ a hb.ne'] at this
  unfold fmod
  nlinarith

theorem fmod_sub_int {α : Type} [LinearOrderedField α] [FloorRing α]
    (a b : α) (n : ℤ) (hb : b ≠ 0) : fmod (a - b * n) b = fmod a b := by
  unfold fmod
  have hdiv : (a - b * n) / b = a / b - n := by
    field_simp
  rw [hdiv, Int.floor_sub_int]
  push_cast
  ring

/-- Any wrapped value lies in the half-open target interval `[-180, 180)`. -/
theorem wrap_mem_Ico {α : Type} [LinearOrderedField α] [FloorRing α] (x : α) :
    wrap x ∈ Set.Ico (-180 : α) 180 := by
  unfold wrap
  constructor
  · have := fmod_nonneg (a := x - -180 + 360 * 2) (b := (360 : α)) (by norm_num)
    linarith
  · have := fmod_lt (a := x - -180 + 360 * 2) (b := (360 : α)) (by norm_num)
    linarith

/-- Values already in `[-180, 180)` are fixed by `wrap`. -/
theorem wrap_eq_self {α : Type} [LinearOrderedField α] [FloorRing α] {x : α}
    (h1 : -180 ≤ x) (h2 : x < 180) : wrap x = x := by
  unfold wrap fmod
  have hfloor : ⌊(x - -180 + 360 * 2) / 360⌋ = 2 := by
    rw [Int.floor_eq_iff]
    constructor
    · push_cast
      rw [le_div_iff₀ (by norm_num)]
      linarith
    · push_cast
      rw [div_lt_iff₀ (by norm_num)]
      linarith
  rw [hfloor]
  push_cast
  ring

/-- Wrapping is invariant under shifting by whole periods. -/
theorem wrap_sub_int_mul (x : ℝ) (n : ℤ) : wrap (x - 360 * n) = wrap x := by
  unfold wrap
  have : x - 360 * (n : ℝ) - -180 + 360 * 2 = (x - -180 + 360 * 2) - 360 * n := by
    ring
  rw [this, fmod_sub_int _ _ _ (by norm_num)]

/-- C6: with the default base `-180` and period `360`, `wrap` is idempotent on
every real input, and every input already inside `[-180, 180)` is returned
unchanged. -/
theorem C6_wrap_idempotent (x : ℝ) :
    wrap (wrap x) = wrap x ∧ (-180 ≤ x → x < 180 → wrap x = x) := by
  constructor
  · have h := wrap_mem_Ico x
    exact wrap_eq_self h.1 h.2
  · intro h1 h2
    exact wrap_eq_self h1 h2

/-- Witness for C6 at the concrete inputs `x = 500` and `x = 0`. -/
theorem C6_wrap_idempotent_witness :
    wrap (wrap (500 : ℝ)) = wrap 500 ∧
      ((-180 : ℝ) ≤ 0 ∧ (0 : ℝ) < 180 ∧ wrap (0 : ℝ) = 0) :=
  ⟨(C6_wrap_idempotent 500).1,
    by norm_num, by norm_num,
    (C6_wrap_idempotent 0).2 (by norm_num) (by norm_num)⟩

/-- Embedding of NumPy `arctan2(y, x)` as the principal argument of the
complex number `x + y*i`, which lies in `(-π, π]` and is `0` at the origin. -/
noncomputable def arctan2 (y x : ℝ) : ℝ :=
  Complex.arg (x + y * Complex.I)

/-- Embedding of `common.to_xyz` for a single longitude/latitude pair
(degrees): `x = r·sin(θ)·cos(φ)`, `y = r·sin(θ)·sin(φ)`, `z = r·cos(θ)` with
`θ = radians(90 - lat)`, `φ = radians(lon)` and `r = abs(radius)`. -/
noncomputable def to_xyz (lon lat radius : ℝ) : ℝ × ℝ × ℝ :=
  (|radius| * Real.sin ((90 - lat) * π / 180) * Real.cos (lon * π / 180),
   |radius| * Real.sin ((90 - lat) * π / 180) * Real.sin (lon * π / 180),
   |radius| * Real.cos ((90 - lat) * π / 180))

open Classical in
/-- Embedding of `common.to_lonlats` (default `radians=False` path, to which
`common.to_lonlat` delegates) for a single cartesian point: longitude
`degrees(arctan2(y, x))` wrapped into `[-180, 180)`, latitude
`degrees(arcsin(z / r))` with `z / r` defensively clamped to the arcsin
domain `[-1, 1]`, and `r = abs(radius)`. -/
noncomputable def to_lonlat (p : ℝ × ℝ × ℝ) (radius : ℝ) : ℝ × ℝ :=
  (wrap (arctan2 p.2.1 p.1 * 180 / π),
   Real.arcsin
       (if 1 < p.2.2 / |radius| then 1
        else if p.2.2 / |radius| < -1 then -1
        else p.2.2 / |radius|) *
     180 / π)

/-- C5: converting a longitude/latitude pair to geocentric coordinates and
back recovers `(wrap lon, lat)` exactly for `lat ∈ (-90, 90)` and `r > 0`,
while at the poles `lat = ±90` the round trip yields longitude `0`. -/
theorem C5_roundtrip (lon lat radius : ℝ) (hr : 0 < radius) :
    ((-90 < lat ∧ lat < 90) →
        to_lonlat (to_xyz lon lat radius) radius = (wrap lon, lat)) ∧
    ((lat = 90 ∨ lat = -90) →
        to_lonlat (to_xyz lon lat radius) radius = (0, lat)) := by
  have habs : |radius| = radius := abs_of_pos hr
  have hpi : (π : ℝ) ≠ 0 := Real.pi_ne_zero
  have hlat_arcsin : ∀ l : ℝ, -90 ≤ l → l ≤ 90 →
      Real.arcsin (Real.sin (l * π / 180)) * 180 / π = l := by
    intro l hl1 hl2
    have h1 : -(π / 2) ≤ l * π / 180 := by
      nlinarith [mul_nonneg (show (0:ℝ) ≤ l + 90 by linarith) Real.pi_pos.le]
    have h2 : l * π / 180 ≤ π / 2 := by
      nlinarith [mul_nonneg (show (0:ℝ) ≤ 90 - l by linarith) Real.pi_pos.le]
    rw [Real.arcsin_sin h1 h2]
    field_simp
  constructor
  · rintro ⟨h1, h2⟩
    have hzr : radius * Real.cos ((90 - lat) * π / 180) / radius
        = Real.sin (lat * π / 180) := by
      rw [mul_div_cancel_left₀ _ hr.ne']
      have : (90 - lat) * π / 180 = π / 2 - lat * π / 180 := by ring
      rw [this, Real.cos_pi_div_two_sub]
    have hlat : Real.arcsin
        (if 1 < radius * Real.cos ((90 - lat) * π / 180) / radius then 1
         else if radius * Real.cos ((90 - lat) * π / 180) / radius < -1 then -1
         else radius * Real.cos ((90 - lat) * π / 180) / radius) * 180 / π
        = lat := by
      rw [if_neg (by rw [hzr]; exact not_lt.mpr (Real.sin_le_one _)),
        if_neg (by rw [hzr]; exact not_lt.mpr (Real.neg_one_le_sin _)), hzr,
        hlat_arcsin lat h1.le h2.le]
    -- the longitude component
    have hsinθ : 0 < Real.sin ((90 - lat) * π / 180) := by
      apply Real.sin_pos_of_pos_of_lt_pi
      · nlinarith [mul_pos (show (0:ℝ) < 90 - lat by linarith) Real.pi_pos]
      · nlinarith [mul_pos (show (0:ℝ) < lat + 90 by linarith) Real.pi_pos]
    have hk : 0 < radius * Real.sin ((90 - lat) * π / 180) :=
      mul_pos hr hsinθ
    set φ := lon * π / 180 with hφdef
    have hcast :
        ((radius * Real.sin ((90 - lat) * π / 180) * Real.cos φ : ℝ) : ℂ) +
            ((radius * Real.sin ((90 - lat) * π / 180) * Real.sin φ : ℝ) : ℂ) *
              Complex.I
          = ((radius * Real.sin ((90 - lat) * π / 180) : ℝ) : ℂ) *
              (((Real.cos φ : ℝ) : ℂ) + ((Real.sin φ : ℝ) : ℂ) * Complex.I) := by
      push_cast
      ring
    set n : ℤ := toIocDiv Real.two_pi_pos (-π) φ with hndef
    have hψ : toIocMod Real.two_pi_pos (-π) φ = φ - n * (2 * π) := by
      have := self_sub_toIocMod Real.two_pi_pos (-π) φ
      rw [zsmul_eq_mul] at this
      linarith
    have hψmem : toIocMod Real.two_pi_pos (-π) φ ∈ Set.Ioc (-π) π := by
      have := toIocMod_mem_Ioc Real.two_pi_pos (-π) φ
      rwa [show -π + 2 * π = π by ring] at this
    have harg : Complex.arg
        (((radius * Real.sin ((90 - lat) * π / 180) * Real.cos φ : ℝ) : ℂ) +
          ((radius * Real.sin ((90 - lat) * π / 180) * Real.sin φ : ℝ) : ℂ) *
            Complex.I) = φ - n * (2 * π) := by
      rw [hcast, Complex.arg_real_mul _ hk]
      have hc : Real.cos φ = Real.cos (φ - n * (2 * π)) :=
        (Real.cos_sub_int_mul_two_pi φ n).symm
      have hs : Real.sin φ = Real.sin (φ - n * (2 * π)) :=
        (Real.sin_sub_int_mul_two_pi φ n).symm
      rw [hc, hs, Complex.ofReal_cos, Complex.ofReal_sin,
        Complex.arg_cos_add_sin_mul_I (hψ ▸ hψmem)]
    have hlon : wrap ((φ - n * (2 * π)) * 180 / π) = wrap lon := by
      have : (φ - n * (2 * π)) * 180 / π = lon - 360 * n := by
        rw [hφdef]
        field_simp
        ring
      rw [this, wrap_sub_int_mul]
    simp only [to_xyz, to_lonlat, arctan2, habs, Prod.mk.injEq]
    exact ⟨by rw [harg]; exact hlon, hlat⟩
  · intro hpole
    rcases hpole with h90 | h90 <;> subst h90
    · have h0 : ((90 : ℝ) - 90) * π / 180 = 0 := by ring
      simp only [to_xyz, to_lonlat, arctan2, habs, h0, Real.sin_zero,
        Real.cos_zero, mul_zero, zero_mul, mul_one, Prod.mk.injEq]
      constructor
      · rw [show ((0 : ℝ) : ℂ) + ((0 : ℝ) : ℂ) * Complex.I = 0 by simp,
          Complex.arg_zero, zero_mul, zero_div]
        exact wrap_eq_self (by norm_num) (by norm_num)
      · rw [div_self hr.ne', if_neg (by norm_num), if_neg (by norm_num),
          Real.arcsin_one]
        field_simp
        ring
    · have hπ : ((90 : ℝ) - -90) * π / 180 = π := by ring
      simp only [to_xyz, to_lonlat, arctan2, habs, hπ, Real.sin_pi,
        Real.cos_pi, mul_zero, zero_mul, mul_one, Prod.mk.injEq]
      constructor
      · rw [show ((0 : ℝ) : ℂ) + ((0 : ℝ) : ℂ) * Complex.I = 0 by simp,
          Complex.arg_zero, zero_mul, zero_div]
        exact wrap_eq_self (by norm_num) (by norm_num)
      · rw [show radius * -1 / radius = -1 by field_simp,
          if_neg (by norm_num), if_neg (by norm_num), Real.arcsin_neg_one]
        field_simp
        ring

/-- Witness for C5 at `lon = 30`, `lat = 45`, `radius = 2` and at the north
pole `lat = 90`. -/
theorem C5_roundtrip_witness :
    (0 : ℝ) < 2 ∧ (-90 : ℝ) < 45 ∧ (45 : ℝ) < 90 ∧
      to_lonlat (to_xyz 30 45 2) 2 = (wrap 30, 45) ∧
      to_lonlat (to_xyz 30 90 2) 2 = (0, 90) :=
  ⟨by norm_num, by norm_num, by norm_num,
    (C5_roundtrip 30 45 2 (by norm_num)).1 ⟨by norm_num, by norm_num⟩,
    (C5_roundtrip 30 90 2 (by norm_num)).2 (Or.inl rfl)⟩

/-- Embedding of `np.isclose(a, b)` with the default tolerances
`rtol = 1e-5` and `atol = 1e-8`: `|a - b| <= atol + rtol * |b|`. -/
def np_isclose {α : Type} [LinearOrderedField α] (a b : α) : Prop :=
  |a - b| ≤ 1 / 100000000 + 1 / 100000 * |b|

instance {a b : ℚ} : Decidable (np_isclose a b) := by
  unfold np_isclose
  infer_instance

/-- Dynamic value of the numpy variables `lons` / `lats` held by a `BBox`:
an array, or — after the closed-ring branch of `BBox.__init__` executes
`lons, lats = lons[-1], lats[-1]` — a scalar. -/
inductive PyVal where
  | scalar (x : ℚ)
  | array (xs : List ℚ)
  deriving DecidableEq

/-- Embedding of the validation and ring-opening steps of `BBox.__init__`
(geodesic.py): equal numbers of longitudes and latitudes, between 4 and 5
corners, and — when the first and last corners numerically coincide — the
assignment `lons, lats = lons[-1], lats[-1]`, which leaves scalars bound. -/
def bboxOpenGeometry (lons lats : List ℚ) : Except String (PyVal × PyVal) :=
  if lons.length ≠ lats.length then
    .error "Require the same number of longitudes and latitudes."
  else if lons.length < 4 then
    .error "Require at least 4 longitude/latitude values."
  else if 5 < lons.length then
    .error "Require 4 (open) or 5 (closed) longitude/latitude values."
  else if np_isclose (lons.headD 0) (lons.getLastD 0) ∧
      np_isclose (lats.headD 0) (lats.getLastD 0) then
    .ok (.scalar (lons.getLastD 0), .scalar (lats.getLastD 0))
  else
    .ok (.array lons, .array lats)

/-- Behaviour of the first statement of mesh generation on the stored corner
values: `_generate_face` begins with `bbox_extend(self.lons, self.lats)`,
whose `len(lons)` (and list `extend`) raises `TypeError` when the stored
values are numpy scalars rather than arrays. -/
def generateFaceFirstStep : PyVal × PyVal → Except String (List ℚ × List ℚ)
  | (.array ls, .array ts) => .ok (ls, ts)
  | (.scalar _, .scalar _) => .error "TypeError: len() of unsized object"
  | (.scalar _, .array _) => .error "TypeError: len() of unsized object"
  | (.array _, .scalar _) => .error "TypeError: len() of unsized object"

theorem except_bind_error {ε α β : Type} (e : ε) (f : α → Except ε β) :
    Except.bind (.error e) f = .error e := rfl

theorem except_bind_ok {ε α β : Type} (a : α) (f : α → Except ε β) :
    Except.bind (.ok a) f = f a := rfl

/-- Embedding of `BBox.__init__` corner handling followed by the first
statement of `_generate_face`. -/
def bboxInitCorners (lons lats : List ℚ) : Except String (List ℚ × List ℚ) :=
  Except.bind (bboxOpenGeometry lons lats) generateFaceFirstStep

/-- C3: evaluation of `BBox.__init__` corner handling. An explicitly closed
5-point ring does not collapse to its 4 distinct corners but crashes with a
`TypeError` (the source assigns the scalars `lons[-1]`, `lats[-1]` instead of
the slices `lons[:-1]`, `lats[:-1]`), while a non-closed 5-point input is
accepted without any geometry error; a 4-point open input passes through. -/
theorem C3_closed_ring_collapse :
    bboxInitCorners [0, 10, 10, 0, 0] [0, 0, 10, 10, 0]
        = .error "TypeError: len() of unsized object" ∧
      bboxInitCorners [0, 10, 10, 0, 5] [0, 0, 10, 10, 5]
        = .ok ([0, 10, 10, 0, 5], [0, 0, 10, 10, 5]) ∧
      bboxInitCorners [0, 10, 10, 0] [0, 0, 10, 10]
        = .ok ([0, 10, 10, 0], [0, 0, 10, 10]) := by
  norm_num [bboxInitCorners, bboxOpenGeometry, np_isclose, except_bind_error,
    except_bind_ok, generateFaceFirstStep]

/-- Embedding of `geodesic.wedge` up to its corner construction. The Python
guard is the chained comparison `0 < delta >= 180`, which means
`0 < delta and delta >= 180`. -/
def wedge (lon1 lon2 : ℚ) :
    Except String ((ℚ × ℚ × ℚ × ℚ) × (ℚ × ℚ × ℚ × ℚ)) :=
  if 0 < |lon1 - lon2| ∧ 180 ≤ |lon1 - lon2| then
    .error "A geodesic wedge must have an absolute longitudinal difference (degrees) in the open interval (0, 180)."
  else
    .ok ((lon1, lon2, lon2, lon1), (90, 90, -90, -90))

/-- C4: evaluation of the `wedge` guard. `wedge(10, 170)` succeeds and
`wedge(10, 190)` fails as claimed, but `wedge(10, 10)` — a zero longitudinal
delta — also succeeds, because the chained comparison `0 < delta >= 180` is
false when `delta = 0`. -/
theorem C4_wedge_guard :
    (wedge 10 170).isOk = true ∧ (wedge 10 190).isOk = false ∧
      (wedge 10 10).isOk = true := by
  norm_num [wedge, Except.isOk, Except.toBool]

/-- Embedding of the coordinate path of `Transform.from_unstructured` for
geographic input (`crs=None`): shape validation, longitude wrapping, and the
pole-singularity reduction `xs[np.isclose(np.abs(ys), 90)] = 0` that runs
immediately before the conversion to geocentric coordinates. -/
def fromUnstructuredLonLats (xs ys : List ℚ) : Except String (List (ℚ × ℚ)) :=
  if ys.length ≠ xs.length then
    .error "Require x-values and y-values with the same shape."
  else if xs.length < 3 then
    .error "Require a mesh to have at least one face with three points."
  else
    .ok ((((xs.map (fun x => wrap x)).zip ys).map
      (fun p => if np_isclose |p.2| 90 then (0 : ℚ) else p.1)).zip ys)

/-- Geocentric geometry produced by `Transform.from_unstructured`: `to_xyz`
applied pointwise to the wrapped, pole-collapsed coordinates. -/
noncomputable def fromUnstructuredGeometry (xs ys : List ℚ) (radius : ℝ) :
    Except String (List (ℝ × ℝ × ℝ)) :=
  (fromUnstructuredLonLats xs ys).map
    (fun ps => ps.map (fun p => to_xyz (p.1 : ℝ) (p.2 : ℝ) radius))

/-- C7: every input point whose latitude is within `np.isclose` tolerance of
`±90` reaches the geometry-conversion step with longitude `0` and its
latitude unchanged, regardless of the original longitude. -/
theorem C7_pole_collapse (xs ys : List ℚ) (ps : List (ℚ × ℚ))
    (h : fromUnstructuredLonLats xs ys = .ok ps) :
    ∀ i, i < ps.length → np_isclose |ys.getD i 0| 90 →
      ps.getD i (0, 0) = (0, ys.getD i 0) := by
  intro i hi hclose
  unfold fromUnstructuredLonLats at h
  by_cases hsh : ys.length ≠ xs.length
  · simp only [if_pos hsh] at h
    exact absurd h (by simp)
  · simp only [if_neg hsh] at h
    by_cases hsz : xs.length < 3
    · simp only [if_pos hsz] at h
      exact absurd h (by simp)
    · simp only [if_neg hsz, Except.ok.injEq] at h
      push_neg at hsh
      subst h
      have hplen : i < ys.length := by
        simp only [List.length_zip, List.length_map, hsh] at hi
        omega
      rw [List.getD_eq_getElem _ _ hplen] at hclose
      rw [List.getD_eq_getElem _ _ hi, List.getElem_zip,
        List.getD_eq_getElem _ _ hplen, List.getElem_map, List.getElem_zip]
      exact congrArg₂ Prod.mk (if_pos hclose) rfl

/-- Witness for C7: three points, the second at the north pole and the third
within tolerance of the south pole; both are collapsed to longitude zero. -/
theorem C7_pole_collapse_witness :
    fromUnstructuredLonLats [10, 20, 30] [0, 90, -90]
        = .ok [(10, 0), (0, 90), (0, -90)] ∧
      (1 : ℕ) < 3 ∧ np_isclose |([(0 : ℚ), 90, -90].getD 1 0)| 90 ∧
      ([(10, 0), ((0 : ℚ), (90 : ℚ)), (0, -90)].getD 1 (0, 0)
        = (0, [(0 : ℚ), 90, -90].getD 1 0)) := by
  have hok : fromUnstructuredLonLats [10, 20, 30] [0, 90, -90]
      = .ok [(10, 0), (0, 90), (0, -90)] := by
    have w10 : wrap (10 : ℚ) = 10 := wrap_eq_self (by norm_num) (by norm_num)
    have w20 : wrap (20 : ℚ) = 20 := wrap_eq_self (by norm_num) (by norm_num)
    have w30 : wrap (30 : ℚ) = 30 := wrap_eq_self (by norm_num) (by norm_num)
    norm_num [fromUnstructuredLonLats, np_isclose, w10, w20, w30]
  refine ⟨hok, by norm_num, by norm_num [np_isclose], ?_⟩
  exact C7_pole_collapse [10, 20, 30] [0, 90, -90] _ hok 1
    (by norm_num) (by norm_num [np_isclose])

/-- Embedding of `Transform._create_connectivity_m1n1` for a node grid of
shape `(rows, cols)`: with `idxs = arange(rows*cols).reshape(rows, cols)`,
the four hstacked corner columns are `idxs[1:, :-1]`, `idxs[1:, 1:]`,
`idxs[:-1, 1:]` and `idxs[:-1, :-1]`, raveled row-major. -/
def createConnectivityM1N1 (rows cols : ℕ) : List (List ℕ) :=
  (List.range (rows - 1)).flatMap (fun i =>
    (List.range (cols - 1)).map (fun j =>
      [(i + 1) * cols + j, (i + 1) * cols + (j + 1),
        i * cols + (j + 1), i * cols + j]))

/-- Node geometry of `Transform.from_1d` for already-contiguous 1-D bounds
arrays: `np.meshgrid(xs, ys, indexing="xy")` raveled row-major into flat
per-node coordinates. -/
def meshgridXY (xs ys : List ℚ) : List (ℚ × ℚ) :=
  ys.flatMap (fun y => xs.map (fun x => (x, y)))

/-- Points and connectivity built by `Transform.from_1d` from 1-D axes:
meshgrid nodes of shape `(ys.length, xs.length)` and the quad connectivity
that `Transform.from_2d` derives from that point-grid shape. -/
def from1dStructure (xs ys : List ℚ) : List (ℚ × ℚ) × List (List ℕ) :=
  (meshgridXY xs ys, createConnectivityM1N1 ys.length xs.length)

/-- Twice the signed (shoelace) area of a closed planar polygon; it is
positive exactly when the vertices wind anti-clockwise. -/
def signedArea2 (ps : List (ℚ × ℚ)) : ℚ :=
  ((ps.zip (ps.rotateLeft 1)).map
    (fun pq => pq.1.1 * pq.2.2 - pq.2.1 * pq.1.2)).sum

/-- C8: `from_1d(xs=[0,1,2], ys=[0,1])` builds 6 points and 2 quad faces, but
face 0 is `[3, 4, 1, 0]`, whose vertex coordinates
`(0,1), (1,1), (1,0), (0,0)` wind clockwise (negative shoelace area),
contradicting the claimed (and documented) anti-clockwise ordering. -/
theorem C8_from1d_connectivity :
    (from1dStructure [0, 1, 2] [0, 1]).1.length = 6 ∧
      (from1dStructure [0, 1, 2] [0, 1]).2 = [[3, 4, 1, 0], [4, 5, 2, 1]] ∧
      ((from1dStructure [0, 1, 2] [0, 1]).2.headD []).map
          (fun v => (from1dStructure [0, 1, 2] [0, 1]).1.getD v (0, 0))
        = [(0, 1), (1, 1), (1, 0), (0, 0)] ∧
      signedArea2 [(0, 1), (1, 1), (1, 0), (0, 0)] = -2 := by
  refine ⟨?_, ?_, ?_, ?_⟩
  · norm_num [from1dStructure, meshgridXY]
  · norm_num [from1dStructure, createConnectivityM1N1, List.range_succ]
  · norm_num [from1dStructure, meshgridXY, createConnectivityM1N1,
      List.range_succ]
  · norm_num [signedArea2, List.rotateLeft]

/-- Surface mesh handed to `BBox.enclosed`: cartesian points plus faces
given as vertex-index lists. -/
structure Surface where
  points : List (ℝ × ℝ × ℝ)
  faces : List (List ℕ)

/-- Selection made by `BBox.enclosed` with `preference="point"` (to which
`preference="cell"` is reduced for its first pass): the
`select_enclosed_points` kernel classifies every surface point and
`threshold(0.5, scalars="SelectedPoints", preference="cell")` — with the
pyvista default `all_scalars=False` — keeps exactly the faces having at
least one classified-inside vertex. The external VTK point-in-solid kernel,
with the `tolerance` and `outside` arguments already applied, is abstracted
as the per-point predicate `cl`. -/
def enclosedPointPref (cl : ℝ × ℝ × ℝ → Bool) (s : Surface) :
    List (List ℕ) :=
  s.faces.filter (fun f => f.any (fun v => cl (s.points.getD v (0, 0, 0))))

/-- Selection made by `BBox.enclosed` with `preference="cell"`: after the
point pass, a non-empty region undergoes the per-vertex-slot check:
`npts_per_cell = region.cells[0]`, the reshape
`region.cells.reshape(-1, npts_per_cell + 1)` (a numpy `ValueError` when the
row width does not divide the serialized length), the mixed-face-type guard
`np.diff(cells[:, 0]).sum() != 0` — a telescoping sum comparing only the
first and last parsed rows — and one kernel classification per vertex slot,
ANDed row-wise into the mask passed to `region.extract_cells`. -/
def enclosedCellPref (cl : ℝ × ℝ × ℝ → Bool) (s : Surface) :
    Except String (List (List ℕ)) :=
  let region := enclosedPointPref cl s
  if region.length = 0 ∨ (region.flatMap id).length = 0 then .ok region
  else
    let flat := region.flatMap (fun f => f.length :: f)
    let nptsPerCell := flat.headD 0
    if ¬ (nptsPerCell + 1) ∣ flat.length then
      .error "ValueError: cannot reshape array"
    else
      let cells := flat.toChunks (nptsPerCell + 1)
      if ((cells.getLastD []).headD 0 : ℤ) - ((cells.headD []).headD 0 : ℤ) ≠ 0
        then
        .error "Cannot extract surface enclosed by the bounded-box when the surface has mixed face types and preference is cell. Try center or point instead."
      else
        let mask := cells.map (fun row =>
          (List.range nptsPerCell).all (fun k =>
            cl (s.points.getD (row.getD (k + 1) 0) (0, 0, 0))))
        .ok (((region.zip (List.range region.length)).filter
          (fun fi => mask.getD fi.2 false)).map Prod.fst)

/-- C2: whenever `enclosed` with `preference="cell"` returns a selection,
that selection is a subset of the faces selected with
`preference="point"` on the same surface and classifier. -/
theorem C2_cell_subset_point (cl : ℝ × ℝ × ℝ → Bool) (s : Surface)
    (sel : List (List ℕ)) (h : enclosedCellPref cl s = .ok sel) :
    sel ⊆ enclosedPointPref cl s := by
  simp only [enclosedCellPref] at h
  split_ifs at h with h1 h2 h3 <;> try exact Except.noConfusion h
  all_goals rw [Except.ok.injEq] at h
  all_goals subst h
  all_goals intro a ha
  all_goals
    first
      | exact ha
      | (rcases List.mem_map.mp ha with ⟨fi, hfi, rfl⟩
         exact ((List.of_mem_zip (List.mem_filter.mp hfi).1).1 :
           fi.1 ∈ enclosedPointPref cl s))

/-- Witness for C2: an all-quads surface with an all-inside classifier; the
cell-preference selection equals, and is in particular contained in, the
point-preference selection. -/
theorem C2_cell_subset_point_witness :
    enclosedCellPref (fun _ => true)
        ⟨List.replicate 5 (0, 0, 0), [[0, 1, 2, 3], [1, 2, 3, 4]]⟩
        = .ok [[0, 1, 2, 3], [1, 2, 3, 4]] ∧
      [[0, 1, 2, 3], [1, 2, 3, 4]] ⊆ enclosedPointPref (fun _ => true)
        ⟨List.replicate 5 (0, 0, 0), [[0, 1, 2, 3], [1, 2, 3, 4]]⟩ := by
  refine ⟨?_, ?_⟩
  · rfl
  · exact C2_cell_subset_point _ _ _ rfl

/-- Mixed-arity surface: three quads, one triangle and one pentagon. -/
def mixedSurface : Surface :=
  ⟨List.replicate 6 (0, 0, 0),
    [[0, 1, 2, 3], [1, 2, 3, 4], [0, 1, 2], [0, 1, 2, 3, 4], [2, 3, 4, 5]]⟩

/-- C9: a surface with mixed face vertex counts (arities `4, 4, 3, 5, 4`),
fully inside the bounded box, is processed by `preference="cell"` without
any error — the telescoping guard `np.diff(cells[:, 0]).sum() != 0` compares
only the first and last misparsed rows — and a selection is returned. -/
theorem C9_mixed_faces_not_rejected :
    (mixedSurface.faces.map List.length = [4, 4, 3, 5, 4] ∧
        ¬ ∀ f ∈ mixedSurface.faces, f.length = 4) ∧
      enclosedCellPref (fun _ => true) mixedSurface
        = .ok [[0, 1, 2, 3], [1, 2, 3, 4], [0, 1, 2], [0, 1, 2, 3, 4],
            [2, 3, 4, 5]] := by
  refine ⟨⟨rfl, by decide⟩, rfl⟩

/-- Signature of the external pyproj great-circle interpolator
`geod.npts(lon1, lat1, lon2, lat2, npts, initial_idx, terminus_idx)`. -/
def GeodNpts : Type :=
  ℝ → ℝ → ℝ → ℝ → ℕ → ℕ → ℕ → List (ℝ × ℝ)

/-- Documented output contract of `pyproj.Geod.npts`: of the `npts + 2`
equally spaced points including both endpoints, the slice from
`initial_idx` to the end minus `terminus_idx` is returned. -/
def GeodNptsContract (G : GeodNpts) : Prop :=
  ∀ a b e d n i t, (G a b e d n i t).length = n + 2 - i - t

/-- Embedding of `geodesic.npoints`: the include flags map to
`initial_idx` / `terminus_idx` values of 0 (included) or 1 (excluded), the
interpolated longitudes are passed through `wrap`, and the unpacking
`glons, glats = zip(*glonlats)` raises `ValueError` on an empty result,
modelled as `none`. -/
noncomputable def npoints (G : GeodNpts) (startLon startLat endLon endLat : ℝ)
    (npts : ℕ) (includeStart : Bool := false) (includeEnd : Bool := false) :
    Option (List ℝ × List ℝ) :=
  let pts := G startLon startLat endLon endLat npts
    (cond includeStart 0 1) (cond includeEnd 0 1)
  if pts.isEmpty then none
  else some (pts.map (fun p => wrap p.1), pts.map Prod.snd)

/-- Embedding of `geodesic.npoints_by_idx`: endpoints are resolved from the
shared coordinate buffers by position. -/
noncomputable def npointsByIdx (G : GeodNpts) (lons lats : List ℝ)
    (startIdx endIdx npts : ℕ) : Option (List ℝ × List ℝ) :=
  npoints G (lons.getD startIdx 0) (lats.getD startIdx 0)
    (lons.getD endIdx 0) (lats.getD endIdx 0) npts

/-- Construction state of `BBox._generate_face`: the planar point buffers
`_bbox_lons` / `_bbox_lats`, the running count `_bbox_count`, and the
`(c+1) × (c+1)` index map as a total function on row/column positions. -/
structure BBoxState where
  lons : List ℝ
  lats : List ℝ
  count : ℕ
  idxMap : ℕ → ℕ → ℕ

/-- Embedding of the local `bbox_extend`: append to both buffers and bump
the count by the number of appended points. -/
def bboxExtend (st : BBoxState) (glons glats : List ℝ) : BBoxState :=
  { st with
    lons := st.lons ++ glons
    lats := st.lats ++ glats
    count := st.count + glons.length }

/-- Embedding of `bbox_update(idx1, idx2, row=r)`: interpolate
`npts = c - 1` interior points between the corners at `idx1` and `idx2`,
write `[idx1] + (arange(npts) + count) + [idx2]` into row `r` of the index
map, then extend the point buffers. -/
noncomputable def bboxUpdateRow (G : GeodNpts) (c : ℕ) (st : BBoxState)
    (idx1 idx2 r : ℕ) : Option BBoxState :=
  (npointsByIdx G st.lons st.lats idx1 idx2 (c - 1)).map (fun g =>
    bboxExtend
      { st with idxMap := fun i j =>
          if i = r then
            (if j = 0 then idx1 else if j = c then idx2
             else st.count + (j - 1))
          else st.idxMap i j }
      g.1 g.2)

/-- Embedding of `bbox_update(idx1, idx2, column=col)`, the column variant
of the same operation. -/
noncomputable def bboxUpdateCol (G : GeodNpts) (c : ℕ) (st : BBoxState)
    (idx1 idx2 col : ℕ) : Option BBoxState :=
  (npointsByIdx G st.lons st.lats idx1 idx2 (c - 1)).map (fun g =>
    bboxExtend
      { st with idxMap := fun i j =>
          if j = col then
            (if i = 0 then idx1 else if i = c then idx2
             else st.count + (i - 1))
          else st.idxMap i j }
      g.1 g.2)

/-- Embedding of `BBox._generate_face`: register the corner points
(corner indices `c1..c4 = 0..3`), interpolate the four polygon edges into
the border rows and columns of the index map, then fill each interior row
between its two edge-adjacent entries. -/
noncomputable def generateFace (G : GeodNpts) (c : ℕ) (lons0 lats0 : List ℝ) :
    Option BBoxState :=
  let st1 := bboxExtend ⟨[], [], 0, fun _ _ => 0⟩ lons0 lats0
  (bboxUpdateRow G c st1 0 1 0).bind (fun st2 =>
  (bboxUpdateRow G c st2 3 2 c).bind (fun st3 =>
  (bboxUpdateCol G c st3 0 3 0).bind (fun st4 =>
  (bboxUpdateCol G c st4 1 2 c).bind (fun st5 =>
  (List.range' 1 (c - 1)).foldlM
    (fun st r => bboxUpdateRow G c st (st.idxMap r 0) (st.idxMap r c) r)
    st5))))

/-- Inner-layer quad faces read from the index map: the hstack of the
raveled corner slices `idx_map[:c, :c]`, `idx_map[:c, 1:]`,
`idx_map[1:, 1:]`, `idx_map[1:, :c]`. -/
def innerFaces (c : ℕ) (m : ℕ → ℕ → ℕ) : List (List ℕ) :=
  (List.range c).flatMap (fun i => (List.range c).map (fun j =>
    [m i j, m i (j + 1), m (i + 1) (j + 1), m (i + 1) j]))

/-- Embedding of `BBox._face_edge_idxs`: the boundary ring, concatenating
`idx_map[0]`, `idx_map[1:, -1]`, `idx_map[-1, -2::-1]` and
`idx_map[-2:0:-1, 0]`. -/
def faceEdgeIdxs (c : ℕ) (m : ℕ → ℕ → ℕ) : List ℕ :=
  (List.range (c + 1)).map (fun j => m 0 j) ++
    ((List.range' 1 c).map (fun i => m i c) ++
      (((List.range c).reverse.map (fun j => m c j)) ++
        ((List.range' 1 (c - 1)).reverse.map (fun i => m i 0))))

/-- Embedding of `BBox._generate_skirt`: `c1` is the boundary ring,
`c2 = np.roll(c1, -1)`, `c3 = c2 + n_points`, `c4 = np.roll(c3, 1)`,
hstacked into quads. -/
def skirtFaces (c : ℕ) (m : ℕ → ℕ → ℕ) (nPoints : ℕ) : List (List ℕ) :=
  let c1 := faceEdgeIdxs c m
  let c2 := c1.rotateLeft 1
  let c3 := c2.map (· + nPoints)
  let c4 := c3.rotateRight 1
  (List.range c1.length).map (fun k =>
    [c1.getD k 0, c2.getD k 0, c3.getD k 0, c4.getD k 0])

/-- Embedding of `BBox._generate_mesh` with `triangulate=False`: inner
faces, outer faces offset by `_n_points = (c+1)²`, the skirt, and the two
point layers at radii `radius ∓ radius * RADIUS_RATIO` (ratio `1e-1`). -/
noncomputable def generateMesh (G : GeodNpts) (c : ℕ) (radius : ℝ)
    (lons0 lats0 : List ℝ) :
    Option (List (ℝ × ℝ × ℝ) × List (List ℕ)) :=
  (generateFace G c lons0 lats0).map (fun st =>
    let nPoints := (c + 1) * (c + 1)
    let inner := innerFaces c st.idxMap
    let outer := inner.map (fun f => f.map (· + nPoints))
    let skirt := skirtFaces c st.idxMap nPoints
    let innerXyz := (st.lons.zip st.lats).map
      (fun p => to_xyz p.1 p.2 (radius - radius * (1 / 10)))
    let outerXyz := (st.lons.zip st.lats).map
      (fun p => to_xyz p.1 p.2 (radius + radius * (1 / 10)))
    (innerXyz ++ outerXyz, (inner ++ outer) ++ skirt))

theorem length_flatMap_const {α β : Type} {l : List α} {f : α → List β}
    {k : ℕ} (h : ∀ a ∈ l, (f a).length = k) :
    (l.flatMap f).length = l.length * k := by
  induction l with
  | nil => simp
  | cons a as ih =>
    rw [List.flatMap_cons, List.length_append, h a (by simp),
      ih (fun x hx => h x (by simp [hx])), List.length_cons]
    ring

theorem innerFaces_length (c : ℕ) (m : ℕ → ℕ → ℕ) :
    (innerFaces c m).length = c * c := by
  unfold innerFaces
  rw [length_flatMap_const (k := c) (by intro a _; simp), List.length_range]

theorem faceEdgeIdxs_length {c : ℕ} (hc : 1 ≤ c) (m : ℕ → ℕ → ℕ) :
    (faceEdgeIdxs c m).length = 4 * c := by
  unfold faceEdgeIdxs
  simp only [List.length_append, List.length_map, List.length_range,
    List.length_range', List.length_reverse]
  omega

theorem skirtFaces_length {c : ℕ} (hc : 1 ≤ c) (m : ℕ → ℕ → ℕ)
    (nPoints : ℕ) : (skirtFaces c m nPoints).length = 4 * c := by
  unfold skirtFaces
  rw [List.length_map, List.length_range, faceEdgeIdxs_length hc]

theorem bboxUpdateRow_ok {G : GeodNpts} (hG : GeodNptsContract G)
    {c : ℕ} {st st' : BBoxState} {idx1 idx2 r : ℕ}
    (h : bboxUpdateRow G c st idx1 idx2 r = some st') :
    st'.lons.length = st.lons.length + (c - 1) ∧
      st'.lats.length = st.lats.length + (c - 1) ∧ 2 ≤ c := by
  simp only [bboxUpdateRow, npointsByIdx, npoints, Bool.cond_false] at h
  by_cases he : (G (st.lons.getD idx1 0) (st.lats.getD idx1 0)
      (st.lons.getD idx2 0) (st.lats.getD idx2 0) (c - 1) 1 1).isEmpty
  · rw [if_pos he] at h
    exact absurd h (by simp)
  · rw [if_neg he] at h
    simp only [Option.map_some', Option.some.injEq] at h
    have hlen := hG (st.lons.getD idx1 0) (st.lats.getD idx1 0)
      (st.lons.getD idx2 0) (st.lats.getD idx2 0) (c - 1) 1 1
    have hne : (G (st.lons.getD idx1 0) (st.lats.getD idx1 0)
        (st.lons.getD idx2 0) (st.lats.getD idx2 0) (c - 1) 1 1).length ≠ 0 := by
      intro h0
      exact he (List.isEmpty_iff.mpr (List.length_eq_zero.mp h0))
    subst h
    simp only [bboxExtend, List.length_append, List.length_map]
    omega

theorem bboxUpdateCol_ok {G : GeodNpts} (hG : GeodNptsContract G)
    {c : ℕ} {st st' : BBoxState} {idx1 idx2 col : ℕ}
    (h : bboxUpdateCol G c st idx1 idx2 col = some st') :
    st'.lons.length = st.lons.length + (c - 1) ∧
      st'.lats.length = st.lats.length + (c - 1) ∧ 2 ≤ c := by
  simp only [bboxUpdateCol, npointsByIdx, npoints, Bool.cond_false] at h
  by_cases he : (G (st.lons.getD idx1 0) (st.lats.getD idx1 0)
      (st.lons.getD idx2 0) (st.lats.getD idx2 0) (c - 1) 1 1).isEmpty
  · rw [if_pos he] at h
    exact absurd h (by simp)
  · rw [if_neg he] at h
    simp only [Option.map_some', Option.some.injEq] at h
    have hlen := hG (st.lons.getD idx1 0) (st.lats.getD idx1 0)
      (st.lons.getD idx2 0) (st.lats.getD idx2 0) (c - 1) 1 1
    have hne : (G (st.lons.getD idx1 0) (st.lats.getD idx1 0)
        (st.lons.getD idx2 0) (st.lats.getD idx2 0) (c - 1) 1 1).length ≠ 0 := by
      intro h0
      exact he (List.isEmpty_iff.mpr (List.length_eq_zero.mp h0))
    subst h
    simp only [bboxExtend, List.length_append, List.length_map]
    omega

theorem interior_fold_ok {G : GeodNpts} (hG : GeodNptsContract G) {c : ℕ} :
    ∀ (l : List ℕ) (st st' : BBoxState),
      l.foldlM (fun st r =>
          bboxUpdateRow G c st (st.idxMap r 0) (st.idxMap r c) r) st
        = some st' →
      st'.lons.length = st.lons.length + l.length * (c - 1) ∧
        st'.lats.length = st.lats.length + l.length * (c - 1) := by
  intro l
  induction l with
  | nil =>
    intro st st' h
    simp only [List.foldlM_nil] at h
    cases h
    simp
  | cons r rs ih =>
    intro st st' h
    rw [List.foldlM_cons] at h
    cases hstep : bboxUpdateRow G c st (st.idxMap r 0) (st.idxMap r c) r with
    | none => rw [hstep] at h; exact absurd h (by simp)
    | some st1 =>
      rw [hstep] at h
      have h1 := bboxUpdateRow_ok hG hstep
      have h2 := ih st1 st' h
      constructor
      · rw [h2.1, h1.1, List.length_cons]
        ring
      · rw [h2.2, h1.2.1, List.length_cons]
        ring

/-- C1: whenever the bounded-box shell mesh is successfully generated from 4
open corners under the interpolator contract, it has exactly `2c² + 4c`
faces — decomposed as `c²` inner quads, `c²` outer quads and `4c` skirt
quads, each with 4 vertices — and exactly `2(c+1)²` points. -/
theorem C1_bbox_mesh_counts {G : GeodNpts} (hG : GeodNptsContract G)
    (c : ℕ) (radius : ℝ) (lons0 lats0 : List ℝ)
    (h4 : lons0.length = 4) (h4t : lats0.length = 4)
    (pts : List (ℝ × ℝ × ℝ)) (faces : List (List ℕ))
    (hok : generateMesh G c radius lons0 lats0 = some (pts, faces)) :
    faces.length = 2 * c ^ 2 + 4 * c ∧
      pts.length = 2 * (c + 1) ^ 2 ∧
      (∀ f ∈ faces, f.length = 4) ∧
      (∃ st, generateFace G c lons0 lats0 = some st ∧
        (innerFaces c st.idxMap).length = c ^ 2 ∧
        ((innerFaces c st.idxMap).map
            (fun f => f.map (· + (c + 1) * (c + 1)))).length = c ^ 2 ∧
        (skirtFaces c st.idxMap ((c + 1) * (c + 1))).length = 4 * c) := by
  cases hst : generateFace G c lons0 lats0 with
  | none =>
    rw [generateMesh, hst] at hok
    exact absurd hok (by simp)
  | some st =>
    rw [generateMesh, hst] at hok
    simp only [Option.map_some', Option.some.injEq, Prod.mk.injEq] at hok
    obtain ⟨hpts, hfaces⟩ := hok
    -- reconstruct the length bookkeeping of the successful construction
    have hchain : st.lons.length = (c + 1) * (c + 1) ∧
        st.lats.length = (c + 1) * (c + 1) ∧ 2 ≤ c := by
      rw [generateFace] at hst
      cases h2 : bboxUpdateRow G c
          (bboxExtend ⟨[], [], 0, fun _ _ => 0⟩ lons0 lats0) 0 1 0 with
      | none => rw [h2] at hst; exact absurd hst (by simp)
      | some st2 =>
        rw [h2, Option.some_bind] at hst
        cases h3 : bboxUpdateRow G c st2 3 2 c with
        | none => rw [h3] at hst; exact absurd hst (by simp)
        | some st3 =>
          rw [h3, Option.some_bind] at hst
          cases h4' : bboxUpdateCol G c st3 0 3 0 with
          | none => rw [h4'] at hst; exact absurd hst (by simp)
          | some st4 =>
            rw [h4', Option.some_bind] at hst
            cases h5 : bboxUpdateCol G c st4 1 2 c with
            | none => rw [h5] at hst; exact absurd hst (by simp)
            | some st5 =>
              rw [h5, Option.some_bind] at hst
              have e2 := bboxUpdateRow_ok hG h2
              have e3 := bboxUpdateRow_ok hG h3
              have e4 := bboxUpdateCol_ok hG h4'
              have e5 := bboxUpdateCol_ok hG h5
              have e6 := interior_fold_ok hG _ _ _ hst
              have hc2 : 2 ≤ c := e2.2.2
              have hbase : (bboxExtend ⟨[], [], 0, fun _ _ => 0⟩
                  lons0 lats0).lons.length = 4 := by
                simp [bboxExtend, h4]
              have hbaset : (bboxExtend ⟨[], [], 0, fun _ _ => 0⟩
                  lons0 lats0).lats.length = 4 := by
                simp [bboxExtend, h4t]
              have hd : ∃ d, c = d + 2 := ⟨c - 2, by omega⟩
              obtain ⟨d, rfl⟩ := hd
              have hl : st.lons.length =
                  4 + 4 * (d + 1) + (d + 1) * (d + 1) := by
                rw [e6.1, List.length_range']
                rw [e5.1, e4.1, e3.1, e2.1, hbase]
                have : d + 2 - 1 = d + 1 := by omega
                rw [this]
                ring
              have ht : st.lats.length =
                  4 + 4 * (d + 1) + (d + 1) * (d + 1) := by
                rw [e6.2, List.length_range']
                rw [e5.2.1, e4.2.1, e3.2.1, e2.2.1, hbaset]
                have : d + 2 - 1 = d + 1 := by omega
                rw [this]
                ring
              refine ⟨?_, ?_, by omega⟩
              · rw [hl]; ring
              · rw [ht]; ring
    obtain ⟨hlons, hlats, hc2⟩ := hchain
    have hc1 : 1 ≤ c := by omega
    have hinner := innerFaces_length c st.idxMap
    have hskirt := skirtFaces_length hc1 st.idxMap ((c + 1) * (c + 1))
    have hquad : ∀ f ∈ faces, f.length = 4 := by
      intro f hf
      rw [← hfaces] at hf
      simp only [List.mem_append] at hf
      rcases hf with (hf | hf) | hf
      · rcases List.mem_flatMap.mp hf with ⟨i, _, hi⟩
        rcases List.mem_map.mp hi with ⟨j, _, rfl⟩
        rfl
      · rcases List.mem_map.mp hf with ⟨g, hg, rfl⟩
        rcases List.mem_flatMap.mp hg with ⟨i, _, hi⟩
        rcases List.mem_map.mp hi with ⟨j, _, rfl⟩
        simp
      · rcases List.mem_map.mp hf with ⟨k, _, rfl⟩
        rfl
    refine ⟨?_, ?_, hquad, st, rfl, by rw [hinner]; ring,
      by rw [List.length_map, hinner]; ring, hskirt⟩
    · rw [← hfaces]
      simp only [List.length_append, List.length_map]
      rw [hinner, hskirt]
      ring
    · rw [← hpts]
      simp only [List.length_append, List.length_map, List.length_zip,
        hlons, hlats]
      rw [min_self]
      ring

/-- Concrete stand-in interpolator satisfying the pyproj output contract. -/
noncomputable def geodNptsW : GeodNpts :=
  fun _ _ _ _ n i t => List.replicate (n + 2 - i - t) ((0 : ℝ), (0 : ℝ))

theorem geodNptsW_contract : GeodNptsContract geodNptsW := by
  intro a b e d n i t
  simp [geodNptsW]

/-- Witness for C1 at subdivision `c = 2`, radius 1 and concrete corners:
the generated shell mesh has 16 faces and 18 points. -/
theorem C1_bbox_mesh_counts_witness :
    ∃ (pts : List (ℝ × ℝ × ℝ)) (faces : List (List ℕ)),
      generateMesh geodNptsW 2 1 [0, 10, 10, 0] [0, 0, 10, 10]
          = some (pts, faces) ∧
        faces.length = 2 * 2 ^ 2 + 4 * 2 ∧
        pts.length = 2 * (2 + 1) ^ 2 := by
  have happ := C1_bbox_mesh_counts geodNptsW_contract 2 1
    [0, 10, 10, 0] [0, 0, 10, 10] rfl rfl _ _ rfl
  exact ⟨_, _, rfl, happ.1, happ.2.1⟩

/-- Mesh handed to `common.calculate_radius`: cartesian points plus the
`gvRadius` field-data entry (`none` when no radius has been stored). -/
structure PvMesh where
  points : List (ℝ × ℝ × ℝ)
  fieldRadius : Option ℝ

open Classical in
/-- Embedding of `common.calculate_radius`: compute the axis-aligned bounds
extents and reject a mesh with any near-zero extent as non-spherical;
measure the distance of the first mesh point from `origin`; snap it to the
stored `gvRadius` field value — or the default `RADIUS = 1.0` when none is
stored — whenever `np.isclose`; write the result back into the `gvRadius`
field entry; and return it. An empty mesh indexes out of bounds. -/
noncomputable def calculate_radius (mesh : PvMesh) (origin : ℝ × ℝ × ℝ) :
    Except String (ℝ × PvMesh) :=
  match mesh.points with
  | [] => .error "IndexError: index 0 is out of bounds"
  | p0 :: rest =>
    let xs := (p0 :: rest).map (fun p => p.1)
    let ys := (p0 :: rest).map (fun p => p.2.1)
    let zs := (p0 :: rest).map (fun p => p.2.2)
    let xdiff := xs.foldl max p0.1 - xs.foldl min p0.1
    let ydiff := ys.foldl max p0.2.1 - ys.foldl min p0.2.1
    let zdiff := zs.foldl max p0.2.2 - zs.foldl min p0.2.2
    if np_isclose xdiff 0 ∨ np_isclose ydiff 0 ∨ np_isclose zdiff 0 then
      .error "Cannot calculate radius of a surface that does not appear to be spherical."
    else
      let radius := Real.sqrt ((p0.1 - origin.1) ^ 2 +
        (p0.2.1 - origin.2.1) ^ 2 + (p0.2.2 - origin.2.2) ^ 2)
      let gvRadius := mesh.fieldRadius.getD 1
      let snapped := if np_isclose radius gvRadius then gvRadius else radius
      .ok (snapped, { mesh with fieldRadius := some snapped })

/-- C10: every successful `calculate_radius` call mutates its mesh, storing
the returned radius in the `gvRadius` field entry; and whenever the measured
distance of the first mesh point from the origin is within `np.isclose`
tolerance of the stored `gvRadius` (or of the default `1.0` when none is
stored), the stored/default value itself is returned instead of the
measured distance. -/
theorem C10_calculate_radius_effects (mesh : PvMesh) (origin : ℝ × ℝ × ℝ)
    (r : ℝ) (m2 : PvMesh)
    (h : calculate_radius mesh origin = .ok (r, m2)) :
    m2 = { mesh with fieldRadius := some r } ∧
      (∀ p0 rest, mesh.points = p0 :: rest →
        np_isclose
            (Real.sqrt ((p0.1 - origin.1) ^ 2 + (p0.2.1 - origin.2.1) ^ 2 +
              (p0.2.2 - origin.2.2) ^ 2))
            (mesh.fieldRadius.getD 1) →
        r = mesh.fieldRadius.getD 1) := by
  obtain ⟨pts, fr⟩ := mesh
  cases pts with
  | nil =>
    rw [calculate_radius] at h
    exact absurd h (by simp)
  | cons p0 rest =>
    rw [calculate_radius] at h
    simp only at h
    split_ifs at h with hdeg hsnap
    · rw [Except.ok.injEq, Prod.mk.injEq] at h
      obtain ⟨hr, hm⟩ := h
      subst hr
      subst hm
      refine ⟨rfl, ?_⟩
      intro q0 qrest hq hclose
      rfl
    · rw [Except.ok.injEq, Prod.mk.injEq] at h
      obtain ⟨hr, hm⟩ := h
      subst hr
      subst hm
      refine ⟨rfl, ?_⟩
      intro q0 qrest hq hclose
      injection hq with hq0 hqrest
      rw [← hq0] at hclose
      exact absurd hclose hsnap

/-- Witness for C10: a two-point mesh with no stored radius; the first point
is at distance exactly 1 from the origin, within tolerance of the default
radius `1.0`, so the default is returned and written into the field entry. -/
theorem C10_calculate_radius_effects_witness :
    calculate_radius ⟨[(1, 0, 0), (0, 1, 5)], none⟩ (0, 0, 0)
        = .ok (1, ⟨[(1, 0, 0), (0, 1, 5)], some 1⟩) ∧
      (⟨[(1, 0, 0), (0, 1, 5)], some 1⟩ : PvMesh)
        = { (⟨[(1, 0, 0), (0, 1, 5)], none⟩ : PvMesh) with
            fieldRadius := some (1 : ℝ) } ∧
      (1 : ℝ) = (PvMesh.mk [(1, 0, 0), (0, 1, 5)] none).fieldRadius.getD 1 := by
  have hsq : ((1 : ℝ) - 0) ^ 2 + ((0 : ℝ) - 0) ^ 2 + ((0 : ℝ) - 0) ^ 2 = 1 := by
    norm_num
  have hEval : calculate_radius ⟨[(1, 0, 0), (0, 1, 5)], none⟩ (0, 0, 0)
      = .ok (1, ⟨[(1, 0, 0), (0, 1, 5)], some 1⟩) := by
    simp only [calculate_radius, List.map_cons, List.map_nil, List.foldl_cons,
      List.foldl_nil, hsq, Real.sqrt_one]
    norm_num [np_isclose, max_def, min_def]
  have hclose : np_isclose
      (Real.sqrt ((((1, 0, 0) : ℝ × ℝ × ℝ).1 - ((0, 0, 0) : ℝ × ℝ × ℝ).1) ^ 2 +
        (((1, 0, 0) : ℝ × ℝ × ℝ).2.1 - ((0, 0, 0) : ℝ × ℝ × ℝ).2.1) ^ 2 +
        (((1, 0, 0) : ℝ × ℝ × ℝ).2.2 - ((0, 0, 0) : ℝ × ℝ × ℝ).2.2) ^ 2))
      ((PvMesh.mk [(1, 0, 0), (0, 1, 5)] none).fieldRadius.getD 1) := by
    have h1 : (((1, 0, 0) : ℝ × ℝ × ℝ).1 - ((0, 0, 0) : ℝ × ℝ × ℝ).1) ^ 2 +
        (((1, 0, 0) : ℝ × ℝ × ℝ).2.1 - ((0, 0, 0) : ℝ × ℝ × ℝ).2.1) ^ 2 +
        (((1, 0, 0) : ℝ × ℝ × ℝ).2.2 - ((0, 0, 0) : ℝ × ℝ × ℝ).2.2) ^ 2
          = 1 := by
      norm_num
    rw [h1, Real.sqrt_one]
    norm_num [np_isclose, Option.getD_none]
  exact ⟨hEval, (C10_calculate_radius_effects _ _ _ _ hEval).1,
    (C10_calculate_radius_effects _ _ _ _ hEval).2 (1, 0, 0) [(0, 1, 5)]
      rfl hclose⟩

end Geovista
